import Mathlib

/-!
# Verification of the moat commitment core

Shallow embedding of the moat repository's commitment construction and
registry-client logic, together with theorems settling the specification
claims about it.

The embedded code:
* the hashing/Merkle module (`hashLeaf`, `buildLeafHashes`, `hashMemo`,
  `computeMerkleRoot`, plus its byte codecs `toU32Le`/`toU64Le`);
* the batch-commit client (`toU8`, `assertHashLength`, `commitBatch`);
* the registry-directory client (`callInitialize`, `fetchRegistryState`,
  `isRegistryEntry`, `toU32`, `registerEntry`).

Bytes are modelled as `List Nat` with each element a byte value; machine
words are `Nat` with explicit `% 2 ^ 32` masking.  SHA-256 (which the code
obtains from WebCrypto) is implemented executably below, following
FIPS 180-4, so that concrete digests can be computed inside proofs.
-/

namespace Moat

/-- A byte string: a list of byte values (each `< 256`). -/
abbrev Bytes := List Nat

/-- Equality of `Except` results is decidable when it is on both sides. -/
instance instDecEqExcept {ε α : Type} [DecidableEq ε] [DecidableEq α] :
    DecidableEq (Except ε α) := fun a b =>
  match a, b with
  | Except.ok x, Except.ok y =>
      if h : x = y then isTrue (by rw [h]) else isFalse (by simp [h])
  | Except.error x, Except.error y =>
      if h : x = y then isTrue (by rw [h]) else isFalse (by simp [h])
  | Except.ok _, Except.error _ => isFalse (by simp)
  | Except.error _, Except.ok _ => isFalse (by simp)

/-! ## SHA-256 (FIPS 180-4), executable

The source calls `crypto.subtle.digest("SHA-256", data)`; this section is
the same function, computable in Lean.  Words are `Nat` masked to 32 bits.
-/

/-- Truncate to a 32-bit word. -/
def w32 (n : Nat) : Nat := n % 4294967296

/-- Right-rotate a 32-bit word by `n` bits. -/
def rotr (n x : Nat) : Nat := w32 ((x >>> n) ||| (x <<< (32 - n)))

/-- SHA-256 round constants (FIPS 180-4 §4.2.2, written in decimal). -/
def sha256K : List Nat :=
  [1116352408, 1899447441, 3049323471, 3921009573, 961987163,
   1508970993, 2453635748, 2870763221, 3624381080, 310598401,
   607225278, 1426881987, 1925078388, 2162078206, 2614888103,
   3248222580, 3835390401, 4022224774, 264347078, 604807628,
   770255983, 1249150122, 1555081692, 1996064986, 2554220882,
   2821834349, 2952996808, 3210313671, 3336571891, 3584528711,
   113926993, 338241895, 666307205, 773529912, 1294757372,
   1396182291, 1695183700, 1986661051, 2177026350, 2456956037,
   2730485921, 2820302411, 3259730800, 3345764771, 3516065817,
   3600352804, 4094571909, 275423344, 430227734, 506948616,
   659060556, 883997877, 958139571, 1322822218, 1537002063,
   1747873779, 1955562222, 2024104815, 2227730452, 2361852424,
   2428436474, 2756734187, 3204031479, 3329325298]

/-- SHA-256 initial hash state (FIPS 180-4 §5.3.3, written in decimal). -/
def sha256H0 : List Nat :=
  [1779033703, 3144134277, 1013904242, 2773480762,
   1359893119, 2600822924, 528734635, 1541459225]

/-- A `Nat` as 8 bytes, big-endian (the padded bit-length field). -/
def be64 (n : Nat) : Bytes :=
  [(n >>> 56) % 256, (n >>> 48) % 256, (n >>> 40) % 256, (n >>> 32) % 256,
   (n >>> 24) % 256, (n >>> 16) % 256, (n >>> 8) % 256, n % 256]

/-- SHA-256 padding: append `0x80`, zeros to 56 mod 64, then the bit length. -/
def padMessage (msg : Bytes) : Bytes :=
  let L := msg.length
  let k := (119 - L % 64) % 64
  msg ++ [0x80] ++ List.replicate k 0 ++ be64 (8 * L)

/-- Group bytes into big-endian 32-bit words (four bytes per word). -/
def bytesToWords : Bytes → List Nat
  | a :: b :: c :: d :: rest =>
      (a <<< 24 ||| b <<< 16 ||| c <<< 8 ||| d) :: bytesToWords rest
  | _ => []

/-- Split a word list into 16-word blocks (fuel-driven for kernel reduction). -/
def toBlocksAux : Nat → List Nat → List (List Nat)
  | 0, _ => []
  | fuel + 1, ws =>
      if ws.isEmpty then []
      else ws.take 16 :: toBlocksAux fuel (ws.drop 16)

/-- Split a word list into 16-word blocks. -/
def toBlocks (ws : List Nat) : List (List Nat) := toBlocksAux ws.length ws

/-- Message-schedule sigma-0. -/
def ssig0 (x : Nat) : Nat := (rotr 7 x) ^^^ (rotr 18 x) ^^^ (x >>> 3)

/-- Message-schedule sigma-1. -/
def ssig1 (x : Nat) : Nat := (rotr 17 x) ^^^ (rotr 19 x) ^^^ (x >>> 10)

/-- Compression Sigma-0. -/
def bsig0 (x : Nat) : Nat := (rotr 2 x) ^^^ (rotr 13 x) ^^^ (rotr 22 x)

/-- Compression Sigma-1. -/
def bsig1 (x : Nat) : Nat := (rotr 6 x) ^^^ (rotr 11 x) ^^^ (rotr 25 x)

/-- The `Ch` function. -/
def ch (e f g : Nat) : Nat := (e &&& f) ^^^ ((e ^^^ 0xffffffff) &&& g)

/-- The `Maj` function. -/
def maj (a b c : Nat) : Nat := (a &&& b) ^^^ (a &&& c) ^^^ (b &&& c)

/-- Extend a 16-word block to the 64-word message schedule (`n` extension
steps remaining). -/
def extendW : Nat → List Nat → List Nat
  | 0, w => w
  | n + 1, w =>
      let t := w.length
      let nw := w32 (w.getD (t - 16) 0 + ssig0 (w.getD (t - 15) 0) +
                     w.getD (t - 7) 0 + ssig1 (w.getD (t - 2) 0))
      extendW n (w ++ [nw])

/-- One SHA-256 round: state is the eight working words `[a,b,c,d,e,f,g,h]`,
input is the pair (round constant, schedule word). -/
def roundFn (st : List Nat) (kw : Nat × Nat) : List Nat :=
  match st with
  | [a, b, c, d, e, f, g, h] =>
      let t1 := w32 (h + bsig1 e + ch e f g + kw.1 + kw.2)
      let t2 := w32 (bsig0 a + maj a b c)
      [w32 (t1 + t2), a, b, c, w32 (d + t1), e, f, g]
  | _ => st

/-- Process one 16-word block into the running hash state. -/
def processBlock (h : List Nat) (block : List Nat) : List Nat :=
  let w := extendW 48 block
  let st := (sha256K.zip w).foldl roundFn h
  (h.zip st).map (fun p => w32 (p.1 + p.2))

/-- A 32-bit word as four big-endian bytes. -/
def wordBytesBE (x : Nat) : Bytes :=
  [(x >>> 24) % 256, (x >>> 16) % 256, (x >>> 8) % 256, x % 256]

/-- SHA-256 of a byte string, as 32 bytes. -/
def sha256 (msg : Bytes) : Bytes :=
  let blocks := toBlocks (bytesToWords (padMessage msg))
  let hf := blocks.foldl processBlock sha256H0
  (hf.map wordBytesBE).flatten

/-- Sanity vector: SHA-256 of the empty string (FIPS 180-4 test vector). -/
theorem sha256_empty :
    sha256 [] =
      [0xe3, 0xb0, 0xc4, 0x42, 0x98, 0xfc, 0x1c, 0x14, 0x9a, 0xfb, 0xf4, 0xc8,
       0x99, 0x6f, 0xb9, 0x24, 0x27, 0xae, 0x41, 0xe4, 0x64, 0x9b, 0x93, 0x4c,
       0xa4, 0x95, 0x99, 0x1b, 0x78, 0x52, 0xb8, 0x55] := by decide

/-- Sanity vector: SHA-256 of `"abc"` (FIPS 180-4 test vector). -/
theorem sha256_abc :
    sha256 [0x61, 0x62, 0x63] =
      [0xba, 0x78, 0x16, 0xbf, 0x8f, 0x01, 0xcf, 0xea, 0x41, 0x41, 0x40, 0xde,
       0x5d, 0xae, 0x22, 0x23, 0xb0, 0x03, 0x61, 0xa3, 0x96, 0x17, 0x7a, 0x9c,
       0xb4, 0x10, 0xff, 0x61, 0xf2, 0x00, 0x15, 0xad] := by decide

/-! ## UTF-8 encoding

The source uses `TextEncoder().encode`, which is UTF-8.  Encoded here over
Lean's `String` (a list of Unicode scalar values). -/

/-- UTF-8 encoding of one Unicode scalar value (given as its code point). -/
def utf8Char (c : Nat) : Bytes :=
  if c < 0x80 then [c]
  else if c < 0x800 then
    [0xC0 ||| (c >>> 6), 0x80 ||| (c &&& 0x3F)]
  else if c < 0x10000 then
    [0xE0 ||| (c >>> 12), 0x80 ||| ((c >>> 6) &&& 0x3F), 0x80 ||| (c &&& 0x3F)]
  else
    [0xF0 ||| (c >>> 18), 0x80 ||| ((c >>> 12) &&& 0x3F),
     0x80 ||| ((c >>> 6) &&& 0x3F), 0x80 ||| (c &&& 0x3F)]

/-- UTF-8 encoding of a string (`TextEncoder.encode`). -/
def utf8 (s : String) : Bytes := (s.data.map (fun c => utf8Char c.toNat)).flatten

/-! ## Base58 decoding

`hashLeaf` decodes the creator with the `bs58` package (Bitcoin alphabet).
Decoding: each leading `'1'` contributes one zero byte; the whole string is
read as a base-58 number whose minimal big-endian bytes follow. -/

/-- The Bitcoin base58 alphabet. -/
def base58Alphabet : List Char :=
  "123456789ABCDEFGHJKLMNPQRSTUVWXYZabcdefghijkmnopqrstuvwxyz".data

/-- Index of a character in the base58 alphabet (`none` if absent). -/
def base58Digit (c : Char) : Option Nat :=
  let i := base58Alphabet.indexOf c
  if i < 58 then some i else none

/-- The base-58 value of a character list (`none` on a non-alphabet char). -/
def base58Value : List Char → Option Nat
  | [] => some 0
  | c :: rest => do
      let d ← base58Digit c
      let v ← base58Value rest
      -- big-endian positional fold: c is the most significant remaining digit
      return d * 58 ^ rest.length + v

/-- Minimal big-endian bytes of a `Nat` (empty for 0), fuel-driven. -/
def natBeBytesAux : Nat → Nat → Bytes
  | 0, _ => []
  | fuel + 1, n => if n = 0 then [] else natBeBytesAux fuel (n / 256) ++ [n % 256]

/-- Minimal big-endian bytes of a `Nat` (empty for 0). -/
def natBeBytes (n : Nat) : Bytes := natBeBytesAux n n

/-- Number of leading `'1'` characters (each decodes to one zero byte). -/
def leadingOnes : List Char → Nat
  | '1' :: rest => leadingOnes rest + 1
  | _ => 0

/-- `bs58.decode`: leading-`'1'` zero bytes, then the big-endian bytes of the
base-58 value; fails on a character outside the alphabet. -/
def bs58Decode (s : String) : Except String Bytes :=
  match base58Value s.data with
  | none => Except.error "Non-base58 character"
  | some v => Except.ok (List.replicate (leadingOnes s.data) 0 ++ natBeBytes v)

/-- Sanity: the 32-`'1'` string (the system-program address) decodes to 32
zero bytes. -/
theorem bs58Decode_ones :
    bs58Decode "11111111111111111111111111111111" =
      Except.ok (List.replicate 32 0) := by decide

/-! ## The hashing module (`packages/moat-router`: leaf/memo/Merkle)

Embeds, definition for definition, the hashing source file: the codecs
`toU32Le`/`toU64Le`, `hashMemo`, `hashLeaf`, `buildLeafHashes` and
`computeMerkleRoot`.  JS exceptions become `Except.error` carrying the
thrown message; `number`-typed inputs that the code range-checks are
modelled as `Int` (integrality is inherent in the model, and the code
rejects non-integers up front). -/

namespace Router

/-- A recipient line item (`CommitmentRecipient`). -/
structure CommitmentRecipient where
  recipientCaip10 : String
  amount : String
  assetCaip19 : String
deriving DecidableEq

/-- Batch metadata (`CommitmentMemo`); optional fields may be absent. -/
structure CommitmentMemo where
  title : Option String
  note : Option String
  createdAt : String
deriving DecidableEq

/-- The ASCII domain prefix mixed into every leaf hash. -/
def MOAT_LEAF_PREFIX : String := "moat:v1"

/-- `toU32Le`: range-check a u32 and emit its 4 little-endian bytes
(`DataView.setUint32(0, value, true)`). -/
def toU32Le (value : Int) : Except String Bytes :=
  if value < 0 ∨ value > 0xffffffff then
    Except.error "Index must be a valid u32"
  else
    Except.ok [value.toNat % 256, (value.toNat >>> 8) % 256,
               (value.toNat >>> 16) % 256, (value.toNat >>> 24) % 256]

/-- The byte-extraction loop of `toU64Le`: `n` iterations of
`out[i] = remaining & 0xff; remaining >>= 8`. -/
def toU64LeLoop : Nat → Nat → Bytes
  | 0, _ => []
  | n + 1, remaining => (remaining &&& 0xff) :: toU64LeLoop n (remaining >>> 8)

/-- `toU64Le`: range-check a u64 and emit its 8 little-endian bytes. -/
def toU64Le (value : Int) : Except String Bytes :=
  if value < 0 ∨ value > 18446744073709551615 then
    Except.error "Batch id must be a valid u64"
  else
    Except.ok (toU64LeLoop 8 value.toNat)

/-- Lowercase hex digit for a value `< 16` (used by JSON string escapes). -/
def hexDigit (n : Nat) : Char :=
  if n < 10 then Char.ofNat (48 + n) else Char.ofNat (87 + n)

/-- `JSON.stringify` escaping of one character inside a string literal. -/
def jsonEscapeChar (c : Char) : String :=
  if c = '"' then "\\\""
  else if c = '\\' then "\\\\"
  else if c.toNat = 8 then "\\b"
  else if c.toNat = 9 then "\\t"
  else if c.toNat = 10 then "\\n"
  else if c.toNat = 12 then "\\f"
  else if c.toNat = 13 then "\\r"
  else if c.toNat < 32 then
    String.mk ['\\', 'u', '0', '0', hexDigit (c.toNat / 16), hexDigit (c.toNat % 16)]
  else String.singleton c

/-- `JSON.stringify` of a string value: quoted and escaped. -/
def jsonQuote (s : String) : String :=
  "\"" ++ String.join (s.data.map jsonEscapeChar) ++ "\""

/-- `hashMemo`: SHA-256 of the UTF-8 bytes of
`JSON.stringify(\x7btitle: memo.title ?? "", note: memo.note ?? "",
createdAt: memo.createdAt\x7d)` — three keys, in that insertion order. -/
def hashMemo (memo : CommitmentMemo) : Bytes :=
  let payload :=
    "\x7b\"title\":" ++ jsonQuote (memo.title.getD "") ++
    ",\"note\":" ++ jsonQuote (memo.note.getD "") ++
    ",\"createdAt\":" ++ jsonQuote memo.createdAt ++ "\x7d"
  sha256 (utf8 payload)

/-- The input record of `hashLeaf`. -/
structure LeafInput where
  creator : String
  batchId : Int
  index : Int
  recipient : CommitmentRecipient
deriving DecidableEq

/-- `hashLeaf`: decode the creator (must be 32 bytes), then SHA-256 the
concatenation prefix ‖ creator ‖ batchId-LE8 ‖ index-LE4 ‖ recipient
fields as UTF-8.  The codec calls happen (and can fail) before hashing,
in the argument order of `concatBytes`. -/
def hashLeaf (input : LeafInput) : Except String Bytes :=
  match bs58Decode input.creator with
  | Except.error e => Except.error e
  | Except.ok creatorBytes =>
    if creatorBytes.length ≠ 32 then
      Except.error "Creator pubkey must be 32 bytes"
    else
      match toU64Le input.batchId with
      | Except.error e => Except.error e
      | Except.ok batchBytes =>
        match toU32Le input.index with
        | Except.error e => Except.error e
        | Except.ok indexBytes =>
          Except.ok (sha256
            (utf8 MOAT_LEAF_PREFIX ++ creatorBytes ++ batchBytes ++ indexBytes ++
             utf8 input.recipient.recipientCaip10 ++ utf8 input.recipient.amount ++
             utf8 input.recipient.assetCaip19))

/-- `buildLeafHashes`: hash every recipient at its zero-based position. -/
def buildLeafHashes (creator : String) (batchId : Int)
    (recipients : List CommitmentRecipient) : Except String (List Bytes) :=
  ((List.range recipients.length).zip recipients).mapM
    (fun p => hashLeaf ⟨creator, batchId, Int.ofNat p.1, p.2⟩)

/-- One reduction level of `computeMerkleRoot`: hash consecutive pairs,
the unpaired last element with itself (`level[i + 1] ?? left`). -/
def merklePairs : List Bytes → List Bytes
  | [] => []
  | [x] => [sha256 (x ++ x)]
  | x :: y :: rest => sha256 (x ++ y) :: merklePairs rest

/-- The `while (level.length > 1)` loop, fuel-driven (each iteration at
least halves a level, so `leaves.length` fuel always suffices). -/
def merkleLevels : Nat → List Bytes → List Bytes
  | 0, level => level
  | fuel + 1, level =>
      if level.length ≤ 1 then level else merkleLevels fuel (merklePairs level)

/-- `computeMerkleRoot`: reject the empty list, then reduce level by level
until one digest remains. -/
def computeMerkleRoot (leaves : List Bytes) : Except String Bytes :=
  if leaves.length = 0 then
    Except.error "At least one leaf is required to build the Merkle root"
  else
    Except.ok ((merkleLevels leaves.length leaves).headD [])

end Router

/-! ## Storage addresses

Modelled from the spec: storage-address derivation
(`PublicKey.findProgramAddressSync` of the external `@solana/web3.js`
library, not part of this repository) is, per the spec's design note, any
pure deterministic content-addressed function of the seed list and program
id; it is modelled as the pair of exactly those inputs. -/

/-- A derived storage address: determined by its seed list and program id. -/
structure Address where
  seeds : List Bytes
  programId : Bytes
deriving DecidableEq, BEq

/-- Modelled from the spec: `PublicKey.findProgramAddressSync(seeds,
programId)[0]` as a pure content-addressed derivation from its inputs. -/
def findProgramAddressSync (seeds : List Bytes) (programId : Bytes) : Address :=
  ⟨seeds, programId⟩

/-- Modelled from the spec: `address.toBytes()`, the byte form used when an
address itself serves as a seed; a length-prefixed flattening keeps the
derivation a function of the seed structure. -/
def addressBytes (a : Address) : Bytes :=
  ((a.seeds.map (fun s => s.length :: s)).flatten) ++
    [a.programId.length] ++ a.programId

/-- `new PublicKey(base58)` (external library): base58-decode and require
exactly 32 bytes. -/
def parsePublicKey (s : String) : Except String Bytes :=
  match bs58Decode s with
  | Except.error e => Except.error e
  | Except.ok b =>
    if b.length ≠ 32 then Except.error "Invalid public key input"
    else Except.ok b

/-! ## The batch-commit client

Embeds the commit-side client file: `toU8`, `assertHashLength` and
`commitBatch`.  The `.rpc()` submission is out of scope (an external
collaborator per the spec); `commitBatch` here returns the fully validated
transaction description that the code hands to `.rpc()`, so every
precondition check happens before any `Except.ok` is produced. -/

namespace CommitClient

/-- `HASH_BYTES`. -/
def HASH_BYTES : Nat := 32

/-- `BATCH_SEED = TextEncoder().encode("batch")`. -/
def BATCH_SEED : Bytes := utf8 "batch"

/-- `toU8`: an integer kind in `[0, 255]`, else the thrown error. -/
def toU8 (value : Int) : Except String Nat :=
  if value < 0 ∨ value > 255 then
    Except.error "Kind must be an integer between 0 and 255"
  else Except.ok value.toNat

/-- `assertHashLength`: a digest must be exactly `HASH_BYTES` bytes. -/
def assertHashLength (value : Bytes) (label : String) : Except String Unit :=
  if value.length ≠ HASH_BYTES then
    Except.error (label ++ " must be 32 bytes")
  else Except.ok ()

/-- `BN.toArrayLike(Uint8Array, "le", 8)`: 8 little-endian bytes, failing
(as `bn.js` does) when the value needs more than 8 bytes. -/
def bnToArrayLikeLe8 (n : Nat) : Except String Bytes :=
  if (natBeBytes n).length > 8 then
    Except.error "byte array longer than desired length"
  else Except.ok (Router.toU64LeLoop 8 n)

/-- The validated transaction `commitBatch` submits. -/
structure CommitTx where
  batchId : Nat
  merkleRoot : Bytes
  memoHash : Bytes
  kind : Nat
  batchPda : Address
deriving DecidableEq

/-- `commitBatch`: validate kind and both hash lengths, derive the batch
address from `("batch", creator, batchId-LE8)`, and only then produce the
transaction for submission. -/
def commitBatch (programId : Bytes) (creator : Bytes) (batchId : Nat)
    (merkleRoot : Bytes) (memoHash : Bytes) (kindNumber : Int) :
    Except String CommitTx :=
  match toU8 kindNumber with
  | Except.error e => Except.error e
  | Except.ok kind =>
    match assertHashLength merkleRoot "Merkle root" with
    | Except.error e => Except.error e
    | Except.ok _ =>
      match assertHashLength memoHash "Memo hash" with
      | Except.error e => Except.error e
      | Except.ok _ =>
        match bnToArrayLikeLe8 batchId with
        | Except.error e => Except.error e
        | Except.ok batchSeed =>
          Except.ok ⟨batchId, merkleRoot, memoHash, kind,
            findProgramAddressSync [BATCH_SEED, creator, batchSeed] programId⟩

end CommitClient

/-! ## The registry-directory client

Embeds `moatClient.ts`.  Deserialized on-chain records arrive from the
client-side decoder as JavaScript objects of unknown shape; they are
modelled as string-keyed field lists over a small universe of JavaScript
values (`PublicKey` instances, `BN` instances, numbers, anything else). -/

namespace MoatClient

/-- A JavaScript value as the shape checks see it. -/
inductive JsValue where
  /-- A `PublicKey` instance (32 account-key bytes). -/
  | pk (bytes : Bytes)
  /-- A `BN` (big-number) instance, modelled as an unsigned integer. -/
  | bn (value : Nat)
  /-- A JavaScript `number`. -/
  | num (value : Int)
  /-- Any other value (including `undefined`). -/
  | other
deriving DecidableEq

/-- A deserialized record: an ordered list of (key, value) fields. -/
structure RawRecord where
  fields : List (String × JsValue)
deriving DecidableEq

/-- Property access `record[k]`: the first binding of `k`, if any. -/
def RawRecord.get (r : RawRecord) (k : String) : Option JsValue :=
  (r.fields.find? (fun p => p.1 == k)).map Prod.snd

/-- The `in` operator: is the key present at all (whatever its value)? -/
def RawRecord.hasKey (r : RawRecord) (k : String) : Bool :=
  (RawRecord.get r k).isSome

/-- `record[k]` as the value JavaScript sees (`undefined` ↦ `other`). -/
def RawRecord.getD (r : RawRecord) (k : String) : JsValue :=
  (RawRecord.get r k).getD JsValue.other

/-- `x instanceof PublicKey` on an accessed property. -/
def isPk : Option JsValue → Bool
  | some (JsValue.pk _) => true
  | _ => false

/-- `x instanceof BN` on an accessed property. -/
def isBn : Option JsValue → Bool
  | some (JsValue.bn _) => true
  | _ => false

/-- `typeof x === "number"` on an accessed property. -/
def isNum : Option JsValue → Bool
  | some (JsValue.num _) => true
  | _ => false

/-- `STATE_SEED = TextEncoder().encode("state")`. -/
def STATE_SEED : Bytes := utf8 "state"

/-- `ENTRY_SEED = TextEncoder().encode("entry")`. -/
def ENTRY_SEED : Bytes := utf8 "entry"

/-- `U32_MAX`. -/
def U32_MAX : Nat := 0xffffffff

/-- `getRegistryPda`: the directory's fixed address, derived from the
constant seed `"state"` alone. -/
def getRegistryPda (programId : Bytes) : Address :=
  findProgramAddressSync [STATE_SEED] programId

/-- `encodeU32Le`: 4 little-endian bytes (`DataView.setUint32` coerces
modulo `2 ^ 32`). -/
def encodeU32Le (value : Nat) : Bytes :=
  [w32 value % 256, (w32 value >>> 8) % 256,
   (w32 value >>> 16) % 256, (w32 value >>> 24) % 256]

/-- `isRegistryState`: `admin` must be a `PublicKey`, `bump` a number, and
`nextId` (camelCase) or `next_id` (snake_case) a `BN`. -/
def isRegistryState (value : RawRecord) : Bool :=
  let admin := RawRecord.get value "admin"
  let bump := RawRecord.get value "bump"
  let nextId := RawRecord.get value "nextId"
  let nextIdSnake := RawRecord.get value "next_id"
  if !isPk admin then false
  else if !isNum bump then false
  else if isBn nextId then true
  else if isBn nextIdSnake then true
  else false

/-- The canonical record `fetchRegistryState` returns. -/
structure RegistryStateResult where
  admin : JsValue
  nextId : JsValue
  bump : JsValue
deriving DecidableEq

/-- `fetchRegistryState`, applied to the fetched account object: validate
the shape, then take `nextId` from the camelCase key when present
(`"nextId" in account`), else from the snake_case key. -/
def fetchRegistryState (account : RawRecord) : Except String RegistryStateResult :=
  if !isRegistryState account then
    Except.error "Unexpected registry state shape"
  else
    let nextId :=
      if RawRecord.hasKey account "nextId" then RawRecord.getD account "nextId"
      else RawRecord.getD account "next_id"
    Except.ok ⟨RawRecord.getD account "admin", nextId, RawRecord.getD account "bump"⟩

/-- `isRegistryEntry`: `registry` and `admin` must be `PublicKey`s, `bump`
and `kind` numbers, and `targetProgram` (camelCase) or `target_program`
(snake_case) a `PublicKey`. -/
def isRegistryEntry (value : RawRecord) : Bool :=
  let registry := RawRecord.get value "registry"
  let admin := RawRecord.get value "admin"
  let bump := RawRecord.get value "bump"
  let kind := RawRecord.get value "kind"
  let targetProgram := RawRecord.get value "targetProgram"
  let targetProgramSnake := RawRecord.get value "target_program"
  if !isPk registry then false
  else if !isPk admin then false
  else if !isNum bump then false
  else if !isNum kind then false
  else if isPk targetProgram then true
  else if isPk targetProgramSnake then true
  else false

/-- `toU32`: `BN.toNumber()` then the u32 range check; calling it on a
non-`BN` is the JavaScript `TypeError`. -/
def toU32 (value : JsValue) : Except String Nat :=
  match value with
  | JsValue.bn v =>
      if v > U32_MAX then Except.error "next_id overflow" else Except.ok v
  | _ => Except.error "value.toNumber is not a function"

/-- `toU8` (the registry client's copy). -/
def toU8 (value : Int) : Except String Nat :=
  if value < 0 ∨ value > 255 then
    Except.error "Kind must be an integer between 0 and 255"
  else Except.ok value.toNat

/-- The per-entry mapping inside `fetchEntries`: validate the shape, take
`targetProgram` from whichever naming is present (camelCase checked
first via the `in` operator), and convert a `BN` id through `toU32`
(a plain number id passes through `Number(...)` unchanged; anything else
is JavaScript `NaN`, modelled as `other`). -/
def mapRegistryEntry (account : RawRecord) :
    Except String (JsValue × JsValue × JsValue) :=
  if !isRegistryEntry account then
    Except.error "Unexpected registry entry shape"
  else
    let targetProgram :=
      if RawRecord.hasKey account "targetProgram" then
        RawRecord.getD account "targetProgram"
      else RawRecord.getD account "target_program"
    match RawRecord.get account "id" with
    | some (JsValue.bn v) =>
        (match toU32 (JsValue.bn v) with
         | Except.error e => Except.error e
         | Except.ok n =>
             Except.ok (JsValue.num (Int.ofNat n), targetProgram,
               RawRecord.getD account "kind"))
    | some (JsValue.num n) =>
        Except.ok (JsValue.num n, targetProgram, RawRecord.getD account "kind")
    | _ => Except.ok (JsValue.other, targetProgram, RawRecord.getD account "kind")

/-- The validated transaction `registerEntry` submits. -/
structure EntryTx where
  id : Nat
  kind : Nat
  targetProgram : Bytes
  statePda : Address
  entryPda : Address
deriving DecidableEq

/-- `registerEntry`: read the directory state, take `id = state.nextId`
(u32-checked), validate the kind and target program, and derive the entry
address from `("entry", statePda bytes, id-LE4)`. -/
def registerEntry (programId : Bytes) (stateAccount : RawRecord)
    (targetProgramIdBase58 : String) (kindNumber : Int) :
    Except String EntryTx :=
  let registryPda := getRegistryPda programId
  match fetchRegistryState stateAccount with
  | Except.error e => Except.error e
  | Except.ok state =>
    match toU32 state.nextId with
    | Except.error e => Except.error e
    | Except.ok nextId =>
      match toU8 kindNumber with
      | Except.error e => Except.error e
      | Except.ok kind =>
        let trimmed := targetProgramIdBase58.trim
        if trimmed = "" then
          Except.error "Target program id is required"
        else
          match parsePublicKey trimmed with
          | Except.error e => Except.error e
          | Except.ok targetProgram =>
            let entrySeed := encodeU32Le nextId
            Except.ok ⟨nextId, kind, targetProgram, registryPda,
              findProgramAddressSync
                [ENTRY_SEED, addressBytes registryPda, entrySeed] programId⟩

/-- The ledger as `getAccountInfo` sees it: account data by address. -/
abbrev Ledger := List (Address × Bytes)

/-- `connection.getAccountInfo`: the account at an address, if any. -/
def getAccountInfo (ledger : Ledger) (addr : Address) : Option Bytes :=
  (ledger.find? (fun p => p.1 == addr)).map Prod.snd

/-- `callInitialize`: check the directory's fixed address; if it already
holds an account, fail without submitting, otherwise submit the
initialization (which creates the state account there).  Returns the
outcome together with the resulting ledger. -/
def callInitialize (programId : Bytes) (authority : Bytes) (ledger : Ledger) :
    Except String Address × Ledger :=
  let statePda := getRegistryPda programId
  match getAccountInfo ledger statePda with
  | some _ => (Except.error "Registry already initialized on devnet", ledger)
  | none => (Except.ok statePda, (statePda, authority) :: ledger)

end MoatClient

/-! ## Spec-side encodings and bridges -/

/-- The spec's `k`-byte little-endian encoding: byte `i` is `n / 256 ^ i % 256`. -/
def leBytes (k n : Nat) : Bytes := (List.range k).map (fun i => n / 256 ^ i % 256)

/-- Masking with `0xff` is reduction mod 256. -/
theorem land255 (n : Nat) : n &&& 255 = n % 256 := by
  have h := Nat.and_pow_two_sub_one_eq_mod n 8
  simpa using h

/-- The code's byte-extraction loop agrees with the spec's little-endian
encoding at width 8. -/
theorem toU64LeLoop_eq_leBytes (n : Nat) : Router.toU64LeLoop 8 n = leBytes 8 n := by
  simp [Router.toU64LeLoop, leBytes, List.range_succ, land255,
        Nat.shiftRight_eq_div_pow, Nat.div_div_eq_div_mul]

/-- The code's `setUint32` bytes agree with the spec's little-endian
encoding at width 4. -/
theorem toU32Le_bytes_eq_leBytes (n : Nat) :
    [n % 256, (n >>> 8) % 256, (n >>> 16) % 256, (n >>> 24) % 256] = leBytes 4 n := by
  simp [leBytes, List.range_succ, Nat.shiftRight_eq_div_pow]

/-- The domain prefix is the seven ASCII bytes of `"moat:v1"`. -/
theorem utf8DomainTag :
    utf8 Router.MOAT_LEAF_PREFIX = [0x6d, 0x6f, 0x61, 0x74, 0x3a, 0x76, 0x31] := by
  decide

/-! ## The claims -/

/-- C1: for every creator that base58-decodes to exactly 32 bytes, every
batchId in `[0, 2^64-1]`, every index in `[0, 2^32-1]` and every recipient,
`hashLeaf` is the SHA-256 of domain prefix ‖ creator bytes ‖ batchId-LE8 ‖
index-LE4 ‖ recipient UTF-8 fields, in that order; a creator of the wrong
length fails with the invalid-identity error, and an out-of-range batchId
or index fails with the respective out-of-range error, no digest being
produced in either case. -/
theorem hashLeaf_spec (creator : String) (cb : Bytes) (batchId index : Int)
    (r : Router.CommitmentRecipient)
    (hdec : bs58Decode creator = Except.ok cb) :
    (cb.length = 32 → 0 ≤ batchId → batchId ≤ 18446744073709551615 →
      0 ≤ index → index ≤ 4294967295 →
      Router.hashLeaf ⟨creator, batchId, index, r⟩ =
        Except.ok (sha256
          ([0x6d, 0x6f, 0x61, 0x74, 0x3a, 0x76, 0x31] ++ cb ++
           leBytes 8 batchId.toNat ++ leBytes 4 index.toNat ++
           utf8 r.recipientCaip10 ++ utf8 r.amount ++ utf8 r.assetCaip19))) ∧
    (cb.length ≠ 32 →
      Router.hashLeaf ⟨creator, batchId, index, r⟩ =
        Except.error "Creator pubkey must be 32 bytes") ∧
    (cb.length = 32 → batchId < 0 ∨ batchId > 18446744073709551615 →
      Router.hashLeaf ⟨creator, batchId, index, r⟩ =
        Except.error "Batch id must be a valid u64") ∧
    (cb.length = 32 → 0 ≤ batchId → batchId ≤ 18446744073709551615 →
      index < 0 ∨ index > 4294967295 →
      Router.hashLeaf ⟨creator, batchId, index, r⟩ =
        Except.error "Index must be a valid u32") := by
  refine ⟨?_, ?_, ?_, ?_⟩
  · intro h32 hb0 hb1 hi0 hi1
    have hb : ¬(batchId < 0 ∨ batchId > 18446744073709551615) := by omega
    have hi : ¬(index < 0 ∨ index > 4294967295) := by omega
    simp [Router.hashLeaf, hdec, h32, Router.toU64Le, Router.toU32Le,
          eq_false hb, eq_false hi, toU64LeLoop_eq_leBytes,
          toU32Le_bytes_eq_leBytes, utf8DomainTag]
  · intro h32
    simp [Router.hashLeaf, hdec, h32]
  · intro h32 hb
    simp [Router.hashLeaf, hdec, h32, Router.toU64Le, eq_true hb]
  · intro h32 hb0 hb1 hi
    have hb : ¬(batchId < 0 ∨ batchId > 18446744073709551615) := by omega
    simp [Router.hashLeaf, hdec, h32, Router.toU64Le, Router.toU32Le,
          eq_false hb, eq_true hi]

/-- Witness for C1: a concrete 32-byte creator, in-range batchId and index. -/
theorem hashLeaf_spec_witness :
    Router.hashLeaf ⟨"11111111111111111111111111111111", 5, 7, ⟨"r", "1.25", "s"⟩⟩ =
      Except.ok (sha256
        ([0x6d, 0x6f, 0x61, 0x74, 0x3a, 0x76, 0x31] ++ List.replicate 32 0 ++
         leBytes 8 (5 : Int).toNat ++ leBytes 4 (7 : Int).toNat ++
         utf8 "r" ++ utf8 "1.25" ++ utf8 "s")) :=
  (hashLeaf_spec "11111111111111111111111111111111" (List.replicate 32 0) 5 7
      ⟨"r", "1.25", "s"⟩ (by decide)).1
    (by decide) (by decide) (by decide) (by decide) (by decide)

/-- C2: one Merkle level hashes consecutive pairs and pairs an unpaired
last digest with itself (never promotes it), and for any three leaves the
root is `SHA-256(SHA-256(A‖B) ‖ SHA-256(C‖C))`. -/
theorem computeMerkleRoot_three :
    (∀ x y rest, Router.merklePairs (x :: y :: rest) =
        sha256 (x ++ y) :: Router.merklePairs rest) ∧
    (∀ x : Bytes, Router.merklePairs [x] = [sha256 (x ++ x)]) ∧
    (∀ A B C : Bytes, Router.computeMerkleRoot [A, B, C] =
        Except.ok (sha256 (sha256 (A ++ B) ++ sha256 (C ++ C)))) :=
  ⟨fun _ _ _ => rfl, fun _ => rfl, fun A B C => by
    simp [Router.computeMerkleRoot, Router.merkleLevels, Router.merklePairs]⟩

/-- C3: the empty list fails with the empty-input error, and a singleton
list returns its leaf unchanged. -/
theorem computeMerkleRoot_empty_single :
    Router.computeMerkleRoot [] =
      Except.error "At least one leaf is required to build the Merkle root" ∧
    ∀ L : Bytes, Router.computeMerkleRoot [L] = Except.ok L :=
  ⟨rfl, fun _ => rfl⟩

/-- C4: `hashMemo` is SHA-256 of the UTF-8 JSON serialization with exactly
the keys title, note, createdAt in that order, absent optional fields
serialized as the empty string; hence absent and empty optional fields
give identical digests. -/
theorem hashMemo_spec :
    (∀ m : Router.CommitmentMemo,
      Router.hashMemo m = sha256 (utf8
        ("\x7b\"title\":" ++ Router.jsonQuote (m.title.getD "") ++
         ",\"note\":" ++ Router.jsonQuote (m.note.getD "") ++
         ",\"createdAt\":" ++ Router.jsonQuote m.createdAt ++ "\x7d"))) ∧
    (∀ c, Router.hashMemo ⟨none, none, c⟩ = Router.hashMemo ⟨some "", some "", c⟩) ∧
    (Router.hashMemo ⟨some "t", none, "2024-01-01T00:00:00.000Z"⟩ =
      sha256 (utf8
        "\x7b\"title\":\"t\",\"note\":\"\",\"createdAt\":\"2024-01-01T00:00:00.000Z\"\x7d")) :=
  ⟨fun _ => rfl, fun _ => rfl, rfl⟩

/-- A value below `256 ^ k` occupies at most `k` big-endian bytes. -/
theorem natBeBytesAux_length_le (fuel : Nat) :
    ∀ k n, n < 256 ^ k → (natBeBytesAux fuel n).length ≤ k := by
  induction fuel with
  | zero => intro k n _; simp [natBeBytesAux]
  | succ f ih =>
    intro k n h
    by_cases h0 : n = 0
    · simp [natBeBytesAux, h0]
    · cases k with
      | zero => simp at h; omega
      | succ j =>
        have hd : n / 256 < 256 ^ j := by
          rw [pow_succ, mul_comm] at h
          exact Nat.div_lt_of_lt_mul h
        have hlen := ih j (n / 256) hd
        simp [natBeBytesAux, h0]
        omega

/-- C5: `commitBatch` errors before producing any transaction whenever a
digest is not exactly 32 bytes or the kind is outside `[0, 255]`, and
succeeds (producing the transaction it would submit) when both digests are
32 bytes and the kind is in range. -/
theorem commitBatch_guards (programId creator : Bytes) (batchId : Nat)
    (merkleRoot memoHash : Bytes) (kindNumber : Int) :
    (merkleRoot.length ≠ 32 →
      ∃ e, CommitClient.commitBatch programId creator batchId merkleRoot
        memoHash kindNumber = Except.error e) ∧
    (memoHash.length ≠ 32 →
      ∃ e, CommitClient.commitBatch programId creator batchId merkleRoot
        memoHash kindNumber = Except.error e) ∧
    (kindNumber < 0 ∨ kindNumber > 255 →
      CommitClient.commitBatch programId creator batchId merkleRoot
        memoHash kindNumber =
          Except.error "Kind must be an integer between 0 and 255") ∧
    (merkleRoot.length = 32 → memoHash.length = 32 →
      0 ≤ kindNumber → kindNumber ≤ 255 → batchId < 256 ^ 8 →
      ∃ tx, CommitClient.commitBatch programId creator batchId merkleRoot
        memoHash kindNumber = Except.ok tx) := by
  refine ⟨?_, ?_, ?_, ?_⟩
  · intro hr
    cases hk : CommitClient.toU8 kindNumber with
    | error e => exact ⟨e, by simp [CommitClient.commitBatch, hk]⟩
    | ok k =>
      exact ⟨"Merkle root must be 32 bytes",
        by simp [CommitClient.commitBatch, hk, CommitClient.assertHashLength,
                 CommitClient.HASH_BYTES, hr]⟩
  · intro hm
    cases hk : CommitClient.toU8 kindNumber with
    | error e => exact ⟨e, by simp [CommitClient.commitBatch, hk]⟩
    | ok k =>
      by_cases hmr : merkleRoot.length = 32
      · exact ⟨"Memo hash must be 32 bytes",
          by simp [CommitClient.commitBatch, hk, CommitClient.assertHashLength,
                   CommitClient.HASH_BYTES, hmr, hm]⟩
      · exact ⟨"Merkle root must be 32 bytes",
          by simp [CommitClient.commitBatch, hk, CommitClient.assertHashLength,
                   CommitClient.HASH_BYTES, hmr]⟩
  · intro hkind
    simp [CommitClient.commitBatch, CommitClient.toU8, eq_true hkind]
  · intro hr hm h0 h255 hb
    have hk : ¬(kindNumber < 0 ∨ kindNumber > 255) := by omega
    have hlen : ¬((natBeBytes batchId).length > 8) := by
      have := natBeBytesAux_length_le batchId 8 batchId hb
      simpa [natBeBytes] using by omega
    refine ⟨⟨batchId, merkleRoot, memoHash, kindNumber.toNat,
      findProgramAddressSync
        [CommitClient.BATCH_SEED, creator, Router.toU64LeLoop 8 batchId]
        programId⟩, ?_⟩
    simp [CommitClient.commitBatch, CommitClient.toU8, eq_false hk,
          CommitClient.assertHashLength, CommitClient.HASH_BYTES, hr, hm,
          CommitClient.bnToArrayLikeLe8, eq_false hlen]

/-- Witness for C5: 31-byte root and 33-byte memo digests are rejected,
kind 256 is rejected, kinds 0 and 255 are accepted. -/
theorem commitBatch_guards_witness :
    (∃ e, CommitClient.commitBatch [1] [2] 0 (List.replicate 31 0)
      (List.replicate 32 0) 1 = Except.error e) ∧
    (∃ e, CommitClient.commitBatch [1] [2] 0 (List.replicate 32 0)
      (List.replicate 33 0) 1 = Except.error e) ∧
    (CommitClient.commitBatch [1] [2] 0 (List.replicate 32 0)
      (List.replicate 32 0) 256 =
        Except.error "Kind must be an integer between 0 and 255") ∧
    (∃ tx, CommitClient.commitBatch [1] [2] 0 (List.replicate 32 0)
      (List.replicate 32 0) 0 = Except.ok tx) ∧
    (∃ tx, CommitClient.commitBatch [1] [2] 0 (List.replicate 32 0)
      (List.replicate 32 0) 255 = Except.ok tx) :=
  ⟨(commitBatch_guards [1] [2] 0 (List.replicate 31 0) (List.replicate 32 0) 1).1
      (by decide),
   (commitBatch_guards [1] [2] 0 (List.replicate 32 0) (List.replicate 33 0) 1).2.1
      (by decide),
   (commitBatch_guards [1] [2] 0 (List.replicate 32 0) (List.replicate 32 0)
      256).2.2.1 (by decide),
   (commitBatch_guards [1] [2] 0 (List.replicate 32 0) (List.replicate 32 0)
      0).2.2.2 (by decide) (by decide) (by decide) (by decide) (by decide),
   (commitBatch_guards [1] [2] 0 (List.replicate 32 0) (List.replicate 32 0)
      255).2.2.2 (by decide) (by decide) (by decide) (by decide) (by decide)⟩

set_option maxRecDepth 100000 in
set_option maxHeartbeats 2000000 in
/-- C6: with two distinct recipients, building the leaves (position hashed
into each leaf) and reducing to a root gives different results for the two
orders. -/
theorem reorder_changes_root :
    (Router.buildLeafHashes "11111111111111111111111111111111" 0
        [⟨"a", "1", "x"⟩, ⟨"b", "2", "y"⟩]).bind Router.computeMerkleRoot ≠
    (Router.buildLeafHashes "11111111111111111111111111111111" 0
        [⟨"b", "2", "y"⟩, ⟨"a", "1", "x"⟩]).bind Router.computeMerkleRoot := by
  decide

/-- C7: two distinct recipient records whose concatenated encodings are
byte-identical (a trailing character of the recipient identifier moved to
the front of the amount) produce the same leaf digest. -/
theorem leaf_encoding_collision :
    Router.hashLeaf ⟨"11111111111111111111111111111111", 0, 0, ⟨"ab", "c", "d"⟩⟩ =
      Router.hashLeaf ⟨"11111111111111111111111111111111", 0, 0, ⟨"a", "bc", "d"⟩⟩ ∧
    (⟨"ab", "c", "d"⟩ : Router.CommitmentRecipient) ≠ ⟨"a", "bc", "d"⟩ := by
  exact ⟨rfl, by decide⟩

/-- C8: a successful `registerEntry` takes its id from the directory
state's `nextId` and derives the entry address from the fixed seed
`"entry"`, the directory's storage key, and the id as 4 little-endian
bytes; a `nextId` beyond the u32 range fails with the counter-overflow
error. -/
theorem registerEntry_spec (programId : Bytes) (account : MoatClient.RawRecord)
    (tp : String) (kindNumber : Int) :
    (∀ tx, MoatClient.registerEntry programId account tp kindNumber =
        Except.ok tx →
      ∃ st, MoatClient.fetchRegistryState account = Except.ok st ∧
        st.nextId = MoatClient.JsValue.bn tx.id ∧
        tx.entryPda = findProgramAddressSync
          [utf8 "entry", addressBytes (MoatClient.getRegistryPda programId),
           leBytes 4 tx.id] programId) ∧
    (∀ st v, MoatClient.fetchRegistryState account = Except.ok st →
      st.nextId = MoatClient.JsValue.bn v → v > 4294967295 →
      MoatClient.registerEntry programId account tp kindNumber =
        Except.error "next_id overflow") := by
  constructor
  · intro tx htx
    cases hfetch : MoatClient.fetchRegistryState account with
    | error e => simp [MoatClient.registerEntry, hfetch] at htx
    | ok st =>
      cases hnid : st.nextId with
      | bn v =>
        by_cases hv : v > MoatClient.U32_MAX
        · simp [MoatClient.registerEntry, hfetch, hnid, MoatClient.toU32,
                eq_true hv] at htx
        · cases hk : MoatClient.toU8 kindNumber with
          | error e =>
            simp [MoatClient.registerEntry, hfetch, hnid, MoatClient.toU32,
                  eq_false hv, hk] at htx
          | ok k =>
            by_cases htrim : tp.trim = ""
            · simp [MoatClient.registerEntry, hfetch, hnid, MoatClient.toU32,
                    eq_false hv, hk, htrim] at htx
            · cases hpk : parsePublicKey tp.trim with
              | error e =>
                simp [MoatClient.registerEntry, hfetch, hnid, MoatClient.toU32,
                      eq_false hv, hk, htrim, hpk] at htx
              | ok tpk =>
                have hvlt : v < 4294967296 := by
                  simp [MoatClient.U32_MAX] at hv; omega
                have henc : MoatClient.encodeU32Le v = leBytes 4 v := by
                  rw [MoatClient.encodeU32Le]
                  rw [show w32 v = v from Nat.mod_eq_of_lt hvlt]
                  exact toU32Le_bytes_eq_leBytes v
                simp [MoatClient.registerEntry, hfetch, hnid, MoatClient.toU32,
                      eq_false hv, hk, htrim, hpk] at htx
                subst htx
                exact ⟨st, rfl, by simp [hnid],
                  by simp [henc, MoatClient.ENTRY_SEED]⟩
      | pk p =>
        simp [MoatClient.registerEntry, hfetch, hnid, MoatClient.toU32] at htx
      | num n =>
        simp [MoatClient.registerEntry, hfetch, hnid, MoatClient.toU32] at htx
      | other =>
        simp [MoatClient.registerEntry, hfetch, hnid, MoatClient.toU32] at htx
  · intro st v hfetch hnid hv
    have hv' : v > MoatClient.U32_MAX := by simp [MoatClient.U32_MAX]; omega
    simp [MoatClient.registerEntry, hfetch, hnid, MoatClient.toU32, eq_true hv']

/-- Witness for C8: a directory state whose counter is one past the u32
maximum makes registration fail with the counter-overflow error. -/
theorem registerEntry_spec_witness :
    MoatClient.registerEntry [9]
        ⟨[("admin", MoatClient.JsValue.pk (List.replicate 32 1)),
          ("next_id", MoatClient.JsValue.bn 4294967296),
          ("bump", MoatClient.JsValue.num 3)]⟩
        "11111111111111111111111111111111" 1 =
      Except.error "next_id overflow" :=
  (registerEntry_spec [9]
      ⟨[("admin", MoatClient.JsValue.pk (List.replicate 32 1)),
        ("next_id", MoatClient.JsValue.bn 4294967296),
        ("bump", MoatClient.JsValue.num 3)]⟩
      "11111111111111111111111111111111" 1).2
    ⟨MoatClient.JsValue.pk (List.replicate 32 1),
     MoatClient.JsValue.bn 4294967296, MoatClient.JsValue.num 3⟩
    4294967296 (by decide) rfl (by decide)

/-- C9: when the directory's fixed storage address (derived from the
constant seed `"state"`) already holds an account, initialization fails
with the already-initialized error and the ledger is unchanged (no
transaction is submitted). -/
theorem initialize_already_guard (programId authority : Bytes)
    (ledger : MoatClient.Ledger) (d : Bytes)
    (h : MoatClient.getAccountInfo ledger (MoatClient.getRegistryPda programId) =
      some d) :
    MoatClient.getRegistryPda programId =
      findProgramAddressSync [utf8 "state"] programId ∧
    MoatClient.callInitialize programId authority ledger =
      (Except.error "Registry already initialized on devnet", ledger) :=
  ⟨rfl, by simp [ MoatClient.callInitialize, h]⟩

/-- Witness for C9: a ledger already holding an account at the directory's
fixed address. -/
theorem initialize_already_guard_witness :
    MoatClient.callInitialize [9] [2]
        [(findProgramAddressSync [utf8 "state"] [9], [1])] =
      (Except.error "Registry already initialized on devnet",
       [(findProgramAddressSync [utf8 "state"] [9], [1])]) :=
  (initialize_already_guard [9] [2]
      [(findProgramAddressSync [utf8 "state"] [9], [1])] [1] (by decide)).2

/-- C10: the state fetcher accepts camelCase `nextId` or snake_case
`next_id` (camelCase taken first), returning the canonical record, and
fails with the shape error when neither key holds a `BN`; the entry
fetcher does the same for `targetProgram`/`target_program`. -/
theorem fetch_shape_tolerance (r : MoatClient.RawRecord) :
    (∀ a b n, MoatClient.RawRecord.get r "admin" = some (MoatClient.JsValue.pk a) →
      MoatClient.RawRecord.get r "bump" = some (MoatClient.JsValue.num b) →
      MoatClient.RawRecord.get r "nextId" = some (MoatClient.JsValue.bn n) →
      MoatClient.fetchRegistryState r = Except.ok
        ⟨MoatClient.JsValue.pk a, MoatClient.JsValue.bn n, MoatClient.JsValue.num b⟩) ∧
    (∀ a b n, MoatClient.RawRecord.get r "admin" = some (MoatClient.JsValue.pk a) →
      MoatClient.RawRecord.get r "bump" = some (MoatClient.JsValue.num b) →
      MoatClient.RawRecord.hasKey r "nextId" = false →
      MoatClient.RawRecord.get r "next_id" = some (MoatClient.JsValue.bn n) →
      MoatClient.fetchRegistryState r = Except.ok
        ⟨MoatClient.JsValue.pk a, MoatClient.JsValue.bn n, MoatClient.JsValue.num b⟩) ∧
    (MoatClient.isBn (MoatClient.RawRecord.get r "nextId") = false →
      MoatClient.isBn (MoatClient.RawRecord.get r "next_id") = false →
      MoatClient.fetchRegistryState r =
        Except.error "Unexpected registry state shape") ∧
    (∀ g a b k i t,
      MoatClient.RawRecord.get r "registry" = some (MoatClient.JsValue.pk g) →
      MoatClient.RawRecord.get r "admin" = some (MoatClient.JsValue.pk a) →
      MoatClient.RawRecord.get r "bump" = some (MoatClient.JsValue.num b) →
      MoatClient.RawRecord.get r "kind" = some (MoatClient.JsValue.num k) →
      MoatClient.RawRecord.get r "id" = some (MoatClient.JsValue.num i) →
      MoatClient.RawRecord.get r "targetProgram" = some (MoatClient.JsValue.pk t) →
      MoatClient.mapRegistryEntry r = Except.ok
        (MoatClient.JsValue.num i, MoatClient.JsValue.pk t, MoatClient.JsValue.num k)) ∧
    (∀ g a b k i t,
      MoatClient.RawRecord.get r "registry" = some (MoatClient.JsValue.pk g) →
      MoatClient.RawRecord.get r "admin" = some (MoatClient.JsValue.pk a) →
      MoatClient.RawRecord.get r "bump" = some (MoatClient.JsValue.num b) →
      MoatClient.RawRecord.get r "kind" = some (MoatClient.JsValue.num k) →
      MoatClient.RawRecord.get r "id" = some (MoatClient.JsValue.num i) →
      MoatClient.RawRecord.hasKey r "targetProgram" = false →
      MoatClient.RawRecord.get r "target_program" = some (MoatClient.JsValue.pk t) →
      MoatClient.mapRegistryEntry r = Except.ok
        (MoatClient.JsValue.num i, MoatClient.JsValue.pk t, MoatClient.JsValue.num k)) ∧
    (MoatClient.isPk (MoatClient.RawRecord.get r "targetProgram") = false →
      MoatClient.isPk (MoatClient.RawRecord.get r "target_program") = false →
      MoatClient.mapRegistryEntry r =
        Except.error "Unexpected registry entry shape") := by
  refine ⟨?_, ?_, ?_, ?_, ?_, ?_⟩
  · intro a b n h1 h2 h3
    simp [MoatClient.fetchRegistryState, MoatClient.isRegistryState,
          MoatClient.isPk, MoatClient.isBn, MoatClient.isNum,
          MoatClient.RawRecord.hasKey, MoatClient.RawRecord.getD, h1, h2, h3]
  · intro a b n h1 h2 hkey h3
    simp [MoatClient.RawRecord.hasKey] at hkey
    simp [MoatClient.fetchRegistryState, MoatClient.isRegistryState,
          MoatClient.isPk, MoatClient.isBn, MoatClient.isNum,
          MoatClient.RawRecord.hasKey, MoatClient.RawRecord.getD,
          h1, h2, h3, hkey]
  · intro h1 h2
    simp [MoatClient.fetchRegistryState, MoatClient.isRegistryState, h1, h2]
  · intro g a b k i t h1 h2 h3 h4 h5 h6
    simp [MoatClient.mapRegistryEntry, MoatClient.isRegistryEntry,
          MoatClient.isPk, MoatClient.isNum,
          MoatClient.RawRecord.hasKey, MoatClient.RawRecord.getD,
          h1, h2, h3, h4, h5, h6]
  · intro g a b k i t h1 h2 h3 h4 h5 hkey h6
    simp [MoatClient.RawRecord.hasKey] at hkey
    simp [MoatClient.mapRegistryEntry, MoatClient.isRegistryEntry,
          MoatClient.isPk, MoatClient.isNum,
          MoatClient.RawRecord.hasKey, MoatClient.RawRecord.getD,
          h1, h2, h3, h4, h5, h6, hkey]
  · intro h1 h2
    simp [MoatClient.mapRegistryEntry, MoatClient.isRegistryEntry, h1, h2]

/-- Witness for C10: a snake_case state record is accepted canonically, a
camelCase entry record is accepted canonically, and a record with neither
representation is rejected with the shape error. -/
theorem fetch_shape_tolerance_witness :
    MoatClient.fetchRegistryState
        ⟨[("admin", MoatClient.JsValue.pk (List.replicate 32 1)),
          ("next_id", MoatClient.JsValue.bn 5),
          ("bump", MoatClient.JsValue.num 2)]⟩ =
      Except.ok ⟨MoatClient.JsValue.pk (List.replicate 32 1),
        MoatClient.JsValue.bn 5, MoatClient.JsValue.num 2⟩ ∧
    MoatClient.mapRegistryEntry
        ⟨[("registry", MoatClient.JsValue.pk [1]),
          ("id", MoatClient.JsValue.num 0),
          ("admin", MoatClient.JsValue.pk [2]),
          ("targetProgram", MoatClient.JsValue.pk [3]),
          ("kind", MoatClient.JsValue.num 1),
          ("bump", MoatClient.JsValue.num 4)]⟩ =
      Except.ok (MoatClient.JsValue.num 0, MoatClient.JsValue.pk [3],
        MoatClient.JsValue.num 1) ∧
    MoatClient.fetchRegistryState
        ⟨[("admin", MoatClient.JsValue.pk (List.replicate 32 1)),
          ("bump", MoatClient.JsValue.num 2)]⟩ =
      Except.error "Unexpected registry state shape" :=
  ⟨(fetch_shape_tolerance
      ⟨[("admin", MoatClient.JsValue.pk (List.replicate 32 1)),
        ("next_id", MoatClient.JsValue.bn 5),
        ("bump", MoatClient.JsValue.num 2)]⟩).2.1
      (List.replicate 32 1) 2 5 (by decide) (by decide) (by decide) (by decide),
   (fetch_shape_tolerance
      ⟨[("registry", MoatClient.JsValue.pk [1]),
        ("id", MoatClient.JsValue.num 0),
        ("admin", MoatClient.JsValue.pk [2]),
        ("targetProgram", MoatClient.JsValue.pk [3]),
        ("kind", MoatClient.JsValue.num 1),
        ("bump", MoatClient.JsValue.num 4)]⟩).2.2.2.1
      [1] [2] 4 1 0 [3] (by decide) (by decide) (by decide) (by decide)
      (by decide) (by decide),
   (fetch_shape_tolerance
      ⟨[("admin", MoatClient.JsValue.pk (List.replicate 32 1)),
        ("bump", MoatClient.JsValue.num 2)]⟩).2.2.1 (by decide) (by decide)⟩

end Moat
